import Mathlib

/-!
Verification development for the scroll-synchronized choreography engine of
the Engineering-Timeline website (src/js/animation.js, src/js/scrollController.js,
src/js/main.js).  The JavaScript is shallowly embedded: vectors are triples of
rationals, JS objects with possibly-absent fields use Option, a thrown
TypeError is an explicit error value, and the GSAP tween scheduler is a list
of fade tasks advanced by explicit ticks.
-/

namespace EngTimeline

/-- A 3-component vector (THREE.Vector3), with exact rational coordinates. -/
structure Vec3 where
  x : ℚ
  y : ℚ
  z : ℚ
deriving DecidableEq

/-- THREE.Vector3.add: componentwise sum. -/
def Vec3.add (a b : Vec3) : Vec3 :=
  ⟨a.x + b.x, a.y + b.y, a.z + b.z⟩

/-- Componentwise difference. -/
def Vec3.sub (a b : Vec3) : Vec3 :=
  ⟨a.x - b.x, a.y - b.y, a.z - b.z⟩

/-- Scalar multiple. -/
def Vec3.smul (a : Vec3) (c : ℚ) : Vec3 :=
  ⟨a.x * c, a.y * c, a.z * c⟩

/-- THREE.Vector3.lerpVectors v1 v2 alpha: componentwise v1 + (v2 - v1) * alpha. -/
def Vec3.lerpVectors (v1 v2 : Vec3) (alpha : ℚ) : Vec3 :=
  ⟨v1.x + (v2.x - v1.x) * alpha, v1.y + (v2.y - v1.y) * alpha, v1.z + (v2.z - v1.z) * alpha⟩

def vzero : Vec3 := ⟨0, 0, 0⟩

/-- The mesh handle of a part; the engine only reads and writes its position. -/
structure Mesh where
  position : Vec3
deriving DecidableEq

/-- One entry of the ad-hoc per-part objects of animation.js:
`{ mesh, originalPos, explodeDir, explodedPos }`.  Absent JS fields are `none`. -/
structure Part where
  mesh : Option Mesh
  originalPos : Option Vec3
  explodeDir : Option Vec3
  explodedPos : Option Vec3
deriving DecidableEq

/-- A thrown JS exception, observed when the code dereferences an absent field. -/
inductive JsError where
  | typeError : JsError
deriving DecidableEq

/-- One iteration of the forEach body of setupExplodedView (animation.js):
backfill originalPos from mesh.position when absent, then set
explodedPos := originalPos.clone().add(explodeDir).  Reading position of an
absent mesh, or adding an absent explodeDir, throws a TypeError; the part
keeps whatever mutations happened before the throw. -/
def setupPartStep (p : Part) : Part × Option JsError :=
  match p.originalPos with
  | some o =>
    match p.explodeDir with
    | some d => ({ p with explodedPos := some (o.add d) }, none)
    | none => (p, some .typeError)
  | none =>
    match p.mesh with
    | some m =>
      match p.explodeDir with
      | some d =>
        ({ p with originalPos := some m.position, explodedPos := some (m.position.add d) }, none)
      | none => ({ p with originalPos := some m.position }, some .typeError)
    | none => (p, some .typeError)

/-- setupExplodedView (animation.js): forEach over the parts; a thrown
TypeError aborts the loop, leaving later parts untouched. -/
def setupExplodedView : List Part → List Part × Option JsError
  | [] => ([], none)
  | p :: ps =>
    match setupPartStep p with
    | (p1, some e) => (p1 :: ps, some e)
    | (p1, none) =>
      match setupExplodedView ps with
      | (ps1, e) => (p1 :: ps1, e)

/-- The clamp of updateExplodedView: `Math.max(0, Math.min(1, progress))`. -/
def clamp01 (progress : ℚ) : ℚ :=
  max 0 (min 1 progress)

/-- The cubic ease-in-out of updateExplodedView:
`t < 0.5 ? 4*t*t*t : 1 - Math.pow(-2*t + 2, 3) / 2`. -/
def eased (t : ℚ) : ℚ :=
  if t < 1/2 then 4 * t * t * t else 1 - (-2 * t + 2)^3 / 2

/-- The forEach body of updateExplodedView: skip parts missing mesh,
originalPos or explodedPos, else set the mesh position by lerpVectors. -/
def updatePart (e : ℚ) (part : Part) : Part :=
  match part.mesh, part.originalPos, part.explodedPos with
  | some m, some o, some ep =>
    { part with mesh := some { m with position := Vec3.lerpVectors o ep e } }
  | _, _, _ => part

/-- updateExplodedView (animation.js): clamp the progress, ease it, and lerp
every complete part between originalPos and explodedPos. -/
def updateExplodedView (parts : List Part) (progress : ℚ) : List Part :=
  parts.map (updatePart (eased (clamp01 progress)))

/-- The live position of a part, when it has a mesh. -/
def livePos (p : Part) : Option Vec3 :=
  p.mesh.map Mesh.position

/-- A THREE material, as far as setGroupOpacity touches it: the transparent
flag, the opacity, and a stand-in `color` for every other material field. -/
structure Material where
  transparent : Bool
  opacity : ℚ
  color : ℚ
deriving DecidableEq

/-- The material slot of an Object3D: absent, a single material, or an array. -/
inductive MatSlot where
  | none : MatSlot
  | single (m : Material) : MatSlot
  | array (ms : List Material) : MatSlot
deriving DecidableEq

mutual
/-- A THREE.Object3D, restricted to what the engine reads and writes:
the isMesh / isLineSegments class flags, the material slot, the position,
the visible flag, and the children. -/
inductive Obj3D where
  | node (isMesh : Bool) (isLineSegments : Bool) (material : MatSlot)
      (position : Vec3) (visible : Bool) (children : ObjList) : Obj3D
/-- The children list of an Object3D. -/
inductive ObjList where
  | nil : ObjList
  | cons (head : Obj3D) (tail : ObjList) : ObjList
end

/-- The assignment pair of setGroupOpacity:
`mat.transparent = true; mat.opacity = opacity`. -/
def fadeMat (m : Material) (v : ℚ) : Material :=
  { m with transparent := true, opacity := v }

/-- The isMesh branch of setGroupOpacity on one material slot: a single
material is assigned directly, an array is mapped over with forEach. -/
def slotFade (s : MatSlot) (v : ℚ) : MatSlot :=
  match s with
  | .none => .none
  | .single m => .single (fadeMat m v)
  | .array ms => .array (ms.map (fun m => fadeMat m v))

/-- The traversal callback of setGroupOpacity applied to one node: the
`child.isMesh && child.material` branch, then the
`child.isLineSegments && child.material` branch.  On an array-valued material
the second branch assigns expando properties on the Array object itself, which
leaves every Material unchanged. -/
def fadeNodeMat (isMesh isLineSegments : Bool) (s : MatSlot) (v : ℚ) : MatSlot :=
  let s1 := if isMesh && !(s matches MatSlot.none) then slotFade s v else s
  if isLineSegments && !(s1 matches MatSlot.none) then
    match s1 with
    | .single m => .single (fadeMat m v)
    | other => other
  else s1

mutual
/-- setGroupOpacity (animation.js): group.traverse visits the node itself and
every descendant, forcing transparent and assigning the opacity on every mesh
material and every line-segments material. -/
def setGroupOpacity (g : Obj3D) (v : ℚ) : Obj3D :=
  match g with
  | .node im ils mat pos vis children =>
    .node im ils (fadeNodeMat im ils mat v) pos vis (setGroupOpacityList children v)
/-- setGroupOpacity over a children list. -/
def setGroupOpacityList (l : ObjList) (v : ℚ) : ObjList :=
  match l with
  | .nil => .nil
  | .cons g t => .cons (setGroupOpacity g v) (setGroupOpacityList t v)
end

/-- The materials of one slot, as a list. -/
def slotMats (s : MatSlot) : List Material :=
  match s with
  | .none => []
  | .single m => [m]
  | .array ms => ms

mutual
/-- Every material in the subtree. -/
def allMats (g : Obj3D) : List Material :=
  match g with
  | .node _ _ mat _ _ children => slotMats mat ++ allMatsList children
def allMatsList (l : ObjList) : List Material :=
  match l with
  | .nil => []
  | .cons g t => allMats g ++ allMatsList t
end

mutual
/-- The materials the setGroupOpacity callback assigns to: all slot materials
of mesh nodes, and the single material of a pure line-segments node. -/
def touchedMats (g : Obj3D) : List Material :=
  match g with
  | .node im ils mat _ _ children =>
    (if im then slotMats mat
     else if ils then
       match mat with
       | .single m => [m]
       | _ => []
     else []) ++ touchedMatsList children
def touchedMatsList (l : ObjList) : List Material :=
  match l with
  | .nil => []
  | .cons g t => touchedMats g ++ touchedMatsList t
end

mutual
/-- The materials of nodes that are neither meshes nor line segments; the
traversal callback never assigns to these. -/
def untouchedMats (g : Obj3D) : List Material :=
  match g with
  | .node im ils mat _ _ children =>
    (if !im && !ils then slotMats mat else []) ++ untouchedMatsList children
def untouchedMatsList (l : ObjList) : List Material :=
  match l with
  | .nil => []
  | .cons g t => untouchedMats g ++ untouchedMatsList t
end

mutual
/-- True when no pure line-segments node carries an array-valued material;
in THREE a LineSegments holds a single material, as in models.js. -/
def lsOk (g : Obj3D) : Bool :=
  match g with
  | .node im ils mat _ _ children =>
    (!(!im && ils && (mat matches MatSlot.array _))) && lsOkList children
def lsOkList (l : ObjList) : Bool :=
  match l with
  | .nil => true
  | .cons g t => lsOk g && lsOkList t
end

/-- Erase the two material fields setGroupOpacity writes, keeping everything
else: equal erasures mean identical trees up to transparent/opacity. -/
def eraseMat (m : Material) : Material :=
  { m with transparent := false, opacity := 0 }

def eraseSlot (s : MatSlot) : MatSlot :=
  match s with
  | .none => .none
  | .single m => .single (eraseMat m)
  | .array ms => .array (ms.map eraseMat)

mutual
/-- The whole subtree with transparent/opacity erased from every material. -/
def eraseFade (g : Obj3D) : Obj3D :=
  match g with
  | .node im ils mat pos vis children =>
    .node im ils (eraseSlot mat) pos vis (eraseFadeList children)
def eraseFadeList (l : ObjList) : ObjList :=
  match l with
  | .nil => .nil
  | .cons g t => .cons (eraseFade g) (eraseFadeList t)
end

/-- The root visible flag, written by `group.visible = ...` in main.js. -/
def rootVisible (g : Obj3D) : Bool :=
  match g with
  | .node _ _ _ _ vis _ => vis

/-- Write the root visible flag. -/
def setRootVisible (g : Obj3D) (b : Bool) : Obj3D :=
  match g with
  | .node im ils mat pos _ children => .node im ils mat pos b children

/-- The modelData object passed to registerModel; its parts field may be
absent. -/
structure ModelData where
  parts : Option (List Part)
deriving DecidableEq

/-- JS object property read: the value stored under a string key. -/
def lookupEntry {β : Type} : List (String × β) → String → Option β
  | [], _ => none
  | (a, b) :: rest, k => if a = k then some b else lookupEntry rest k

/-- JS object key assignment on the sectionModels registry: replace the value
under an existing key, else add the key. -/
def insertModel (ms : List (String × ModelData)) (id : String) (md : ModelData) :
    List (String × ModelData) :=
  if (lookupEntry ms id).isSome then
    ms.map (fun kv => if kv.1 = id then (id, md) else kv)
  else ms ++ [(id, md)]

/-- registerModel (scrollController.js): store the modelData under the section
id, then run setupExplodedView on its parts.  `modelData.parts.forEach` throws
a TypeError when parts is absent; the stored entry shares the parts array, so
it holds whatever setupExplodedView managed to write before any throw. -/
def registerModel (ms : List (String × ModelData)) (sectionId : String) (md : ModelData) :
    List (String × ModelData) × Option JsError :=
  match md.parts with
  | none => (insertModel ms sectionId md, some .typeError)
  | some ps =>
    match setupExplodedView ps with
    | (ps1, e) => (insertModel ms sectionId ⟨some ps1⟩, e)

/-- Direction of a GSAP opacity tween in showModel: the fade-out writes
`1 - progress`, the fade-in writes `progress`. -/
inductive FadeKind where
  | fadeOut : FadeKind
  | fadeIn : FadeKind
deriving DecidableEq

/-- One gsap.to tween created by showModel, with its wall-clock start (delay
included) and duration in seconds. -/
structure FadeTask where
  modelId : String
  kind : FadeKind
  startAt : ℚ
  duration : ℚ
deriving DecidableEq

/-- The combined mutable state of scrollController.js and main.js:
activeSection and the observer notification log on the controller side;
currentModelId, the model groups, the live GSAP tweens, the log of completed
tween callbacks, the count of scheduled fade-ins, and the wall clock on the
main.js side. -/
structure SimState where
  activeSection : String
  notifications : List (String × String)
  currentModelId : Option String
  models : List (String × Obj3D)
  tasks : List FadeTask
  completionsFired : List (String × FadeKind)
  fadeInScheduled : Nat
  time : ℚ

/-- The fixed era list of scrollController.js. -/
def ERA_SECTIONS : List String := ["wheel", "steam", "electricity", "internet", "ai"]

/-- The fixed era list of main.js. -/
def ERA_ORDER : List String := ["wheel", "steam", "electricity", "internet", "ai"]

/-- getActiveSection (scrollController.js). -/
def getActiveSection (s : SimState) : String :=
  s.activeSection

/-- Apply a function to the group registered under a model id. -/
def updateModelGroup (s : SimState) (id : String) (f : Obj3D → Obj3D) : SimState :=
  { s with models := s.models.map (fun kv => if kv.1 = id then (kv.1, f kv.2) else kv) }

/-- showModel (main.js): a no-op when the id is already current; else schedule
a 0.3 s fade-out tween on the previous model, and for a registered new model
force its opacity to 0, set it visible, and schedule a 0.4 s fade-in tween
with a 0.1 s delay. -/
def showModel (s : SimState) (eraId : String) : SimState :=
  if s.currentModelId = some eraId then s
  else
    let s1 :=
      match s.currentModelId with
      | some c =>
        if (lookupEntry s.models c).isSome then
          { s with tasks := s.tasks ++ [(⟨c, .fadeOut, s.time, 3/10⟩ : FadeTask)] }
        else s
      | none => s
    let s2 :=
      if (lookupEntry s1.models eraId).isSome then
        let sa := updateModelGroup s1 eraId (fun g => setGroupOpacity g 0)
        let sb := updateModelGroup sa eraId (fun g => setRootVisible g true)
        { sb with tasks := sb.tasks ++ [(⟨eraId, .fadeIn, s.time + 1/10, 2/5⟩ : FadeTask)],
                  fadeInScheduled := sb.fadeInScheduled + 1 }
      else s1
    { s2 with currentModelId := some eraId }

/-- hideAllModels (main.js): hard cut, every group made invisible at once. -/
def hideAllModels (s : SimState) : SimState :=
  { s with models := s.models.map (fun kv => (kv.1, setRootVisible kv.2 false)),
           currentModelId := none }

/-- onSectionChange (main.js), the observer installed via setOnSectionChange:
show the model of an era section, hide everything for hero or unknown ids. -/
def onSectionChange (s : SimState) (newSection _prevSection : String) : SimState :=
  if newSection ∈ ERA_ORDER then showModel s newSection else hideAllModels s

/-- setActiveSection (scrollController.js): a no-op on the already-active id;
else commit the new id, then invoke the installed observer callback with
(sectionId, prevSection). -/
def setActiveSection (s : SimState) (sectionId : String) : SimState :=
  if s.activeSection = sectionId then s
  else
    let prev := s.activeSection
    let s1 := { s with activeSection := sectionId,
                       notifications := s.notifications ++ [(sectionId, prev)] }
    onSectionChange s1 sectionId prev

/-- Advance one live tween at the current wall clock: nothing before its
delayed start; else write the eased-out opacity for its progress, and at
progress 1 run its onComplete (the fade-out also hides the group and resets
opacity to 1) and drop the tween.  GSAP never cancels a tween because a later
one was created for the same group: the tweens of showModel target fresh `{}`
dummy objects. -/
def runTask (s : SimState) (t : FadeTask) : SimState × Option FadeTask :=
  if s.time < t.startAt then (s, some t)
  else
    let p := min 1 ((s.time - t.startAt) / t.duration)
    let v := match t.kind with
      | .fadeOut => 1 - p
      | .fadeIn => p
    let s1 := updateModelGroup s t.modelId (fun g => setGroupOpacity g v)
    if 1 ≤ p then
      let s2 :=
        match t.kind with
        | .fadeOut =>
          let sa := updateModelGroup s1 t.modelId (fun g => setRootVisible g false)
          updateModelGroup sa t.modelId (fun g => setGroupOpacity g 1)
        | .fadeIn => updateModelGroup s1 t.modelId (fun g => setGroupOpacity g 1)
      ({ s2 with completionsFired := s2.completionsFired ++ [(t.modelId, t.kind)] }, none)
    else (s1, some t)

/-- Run every live tween once, in creation order, keeping the unfinished ones. -/
def tickTasks (s : SimState) : List FadeTask → SimState
  | [] => s
  | t :: ts =>
    match runTask s t with
    | (s1, some t1) => tickTasks { s1 with tasks := s1.tasks ++ [t1] } ts
    | (s1, none) => tickTasks s1 ts

/-- One animation frame at wall-clock time tau: GSAP samples every live tween. -/
def tickAll (s : SimState) (tau : ℚ) : SimState :=
  tickTasks { s with time := tau, tasks := [] } s.tasks

/-- The two event sources driving the engine: a ScrollTrigger enter /
enterBack notification, and an animation frame at a wall-clock time. -/
inductive Ev where
  | enter (id : String) : Ev
  | tickTo (tau : ℚ) : Ev

def step (s : SimState) : Ev → SimState
  | .enter id => setActiveSection s id
  | .tickTo tau => tickAll s tau

def runSim (evs : List Ev) (s : SimState) : SimState :=
  evs.foldl step s

/-- The state right after initApp: activeSection starts as the literal
string hero, nothing is current, every built group starts hidden, no tweens. -/
def initState (models : List (String × Obj3D)) : SimState :=
  { activeSection := "hero", notifications := [], currentModelId := none,
    models := models, tasks := [], completionsFired := [], fadeInScheduled := 0,
    time := 0 }

/-- A minimal built model group: an invisible group with one mesh child, as
buildModels leaves each era group before any section change. -/
def demoGroup : Obj3D :=
  .node false false .none vzero false
    (.cons (.node true false (.single ⟨false, 1, 0⟩) vzero true .nil) .nil)

/-- Two registered era models, as buildModels registers them. -/
def demoModels : List (String × Obj3D) :=
  [("steam", demoGroup), ("electricity", demoGroup)]


/-- A complete concrete part for the C4 witness. -/
def c4Part : Part :=
  ⟨some ⟨⟨0, 0, 0⟩⟩, some ⟨0, 0, 0⟩, some ⟨1, 2, 3⟩, some ⟨1, 2, 3⟩⟩

/-- A part whose explodedPos was never computed, for the C7 witness. -/
def c7Part : Part := ⟨some ⟨⟨4, 5, 6⟩⟩, some ⟨4, 5, 6⟩, some ⟨1, 0, 0⟩, none⟩

/-- A fresh part before setup, for the C9 witness. -/
def c9Part : Part := ⟨some ⟨⟨1, 1, 1⟩⟩, some ⟨1, 1, 1⟩, some ⟨0, 2, 0⟩, none⟩

/-- One registered wheel model. -/
def wheelModels : List (String × Obj3D) :=
  [("wheel", demoGroup)]

/-- The initial state with the wheel model registered. -/
def wheelInit : SimState := initState wheelModels

/-- The state after a single enter of the wheel section. -/
def c5Sim : SimState := runSim [.enter "wheel"] wheelInit

/-- C1 crossfade scenario: show steam, let its fade-in finish at 0.6 s, switch
to electricity at 0.6 s (scheduling a fade-to-0 on steam ending at 0.9 s),
tick once at 0.65 s, switch back to steam at 0.65 s (scheduling a fade-to-1 on
steam before the fade-to-0 completed), then tick past every deadline. -/
def c1Events : List Ev :=
  [.enter "steam", .tickTo (6/10), .enter "electricity", .tickTo (13/20),
   .enter "steam", .tickTo 2]

/-- The C1 scenario state right before the final tick. -/
def c1BeforeTick : SimState := runSim (c1Events.take 5) (initState demoModels)

/-- The C1 scenario final state. -/
def c1Final : SimState := runSim c1Events (initState demoModels)

/-- C3 scenario: steam shown and fully faded in. -/
def c3Pre : SimState := runSim [.enter "steam", .tickTo 1] (initState demoModels)

/-- C3 scenario: the driver then references an unknown section id. -/
def c3Post : SimState := setActiveSection c3Pre "workshop"

/-- A concrete group for the C10 witness: a mesh child with an array-valued
material, a line-segments child, and a plain child holding a material that the
traversal must not touch. -/
def c10Group : Obj3D :=
  .node false false .none vzero true
    (.cons (.node true false (.array [⟨false, 1, 3⟩, ⟨true, 1, 4⟩]) vzero true .nil)
      (.cons (.node false true (.single ⟨false, 1, 5⟩) vzero true .nil)
        (.cons (.node false false (.single ⟨false, 1, 6⟩) vzero false .nil) .nil)))

/-- A state whose active section is already the wheel, for the C5 witness. -/
def wheelActiveState : SimState :=
  { activeSection := "wheel", notifications := [("wheel", "hero")],
    currentModelId := some "wheel", models := wheelModels, tasks := [],
    completionsFired := [], fadeInScheduled := 1, time := 1 }

/-! ## Helper lemmas -/

theorem lerpVectors_formula (o e : Vec3) (a : ℚ) :
    Vec3.lerpVectors o e a = o.add ((e.sub o).smul a) := by
  simp only [Vec3.lerpVectors, Vec3.add, Vec3.sub, Vec3.smul]

theorem lerpVectors_zero (o e : Vec3) : Vec3.lerpVectors o e 0 = o := by
  simp only [Vec3.lerpVectors, mul_zero, add_zero]

theorem lerpVectors_one (o e : Vec3) : Vec3.lerpVectors o e 1 = e := by
  rcases e with ⟨ex, ey, ez⟩
  simp only [Vec3.lerpVectors, mul_one, Vec3.mk.injEq]
  refine ⟨by ring, by ring, by ring⟩

theorem clamp01_of_nonpos {t : ℚ} (h : t ≤ 0) : clamp01 t = 0 :=
  max_eq_left (le_trans (min_le_right 1 t) h)

theorem clamp01_of_one_le {t : ℚ} (h : 1 ≤ t) : clamp01 t = 1 := by
  rw [clamp01, min_eq_left h]
  norm_num

theorem eased_zero : eased 0 = 0 := by norm_num [eased]

theorem eased_half : eased (1/2) = 1/2 := by norm_num [eased]

theorem eased_one : eased 1 = 1 := by norm_num [eased]

theorem updatePart_position (c : ℚ) (p : Part) (m : Mesh) (o ep : Vec3)
    (hm : p.mesh = some m) (ho : p.originalPos = some o) (he : p.explodedPos = some ep) :
    updatePart c p = { p with mesh := some ⟨Vec3.lerpVectors o ep c⟩ } := by
  simp [updatePart, hm, ho, he]

theorem updatePart_skip (c : ℚ) (p : Part) (h : p.explodedPos = none) :
    updatePart c p = p := by
  rcases pm : p.mesh with _ | m <;> rcases po : p.originalPos with _ | o <;>
    simp [updatePart, pm, po, h]

theorem updatePart_idem (c : ℚ) (p : Part) :
    updatePart c (updatePart c p) = updatePart c p := by
  rcases pm : p.mesh with _ | m <;> rcases po : p.originalPos with _ | o <;>
    rcases pe : p.explodedPos with _ | ep <;> simp [updatePart, pm, po, pe]

theorem setupPartStep_ok (p p1 : Part) (h : setupPartStep p = (p1, none)) :
    (∃ o d, p1.originalPos = some o ∧ p1.explodeDir = some d ∧
      p1.explodedPos = some (o.add d)) ∧ setupPartStep p1 = (p1, none) := by
  rcases p with ⟨pm, po, pd, pe⟩
  rcases po with _ | o <;> rcases pd with _ | d <;> rcases pm with _ | m <;>
    simp [setupPartStep] at h <;> subst h <;> simp [setupPartStep]

theorem setupExplodedView_ok (parts ps : List Part)
    (h : setupExplodedView parts = (ps, none)) :
    (∀ p ∈ ps, ∃ o d, p.originalPos = some o ∧ p.explodeDir = some d ∧
      p.explodedPos = some (o.add d)) ∧ setupExplodedView ps = (ps, none) := by
  induction parts generalizing ps with
  | nil =>
    rw [setupExplodedView] at h
    injection h with h1 h2
    subst h1
    exact ⟨by simp, rfl⟩
  | cons p rest ih =>
    rcases hs : setupPartStep p with ⟨p1, e1⟩
    rcases e1 with _ | e1
    · rcases hr : setupExplodedView rest with ⟨rest1, e2⟩
      rw [setupExplodedView, hs, hr] at h
      obtain ⟨rfl, rfl⟩ : p1 :: rest1 = ps ∧ e2 = none := by
        simpa [Prod.ext_iff] using h
      obtain ⟨hhead, hstep⟩ := setupPartStep_ok p p1 hs
      obtain ⟨hmem, hidem⟩ := ih rest1 hr
      refine ⟨?_, ?_⟩
      · intro q hq
        rcases List.mem_cons.mp hq with rfl | hq
        · exact hhead
        · exact hmem q hq
      · rw [setupExplodedView, hstep, hidem]
    · rw [setupExplodedView, hs] at h
      simp [Prod.ext_iff] at h

/-! ## Claim theorems: exploded-view interpolator -/

/-- C4.  With every part complete (mesh, originalPos, explodedPos present),
updateExplodedView writes each live position exactly to
originalPos + (explodedPos - originalPos) * eased (clamp progress); progress
at or below 0 reproduces originalPos, at or above 1 reproduces explodedPos,
and the operation is idempotent at a fixed progress value. -/
theorem c4_applyProgress_formula (parts : List Part) (t : ℚ)
    (h : ∀ p ∈ parts, p.mesh.isSome ∧ p.originalPos.isSome ∧ p.explodedPos.isSome) :
    ((updateExplodedView parts t).map livePos =
      parts.map (fun p => some ((p.originalPos.getD vzero).add
        (((p.explodedPos.getD vzero).sub (p.originalPos.getD vzero)).smul
          (eased (clamp01 t)))))) ∧
    (t ≤ 0 → (updateExplodedView parts t).map livePos = parts.map Part.originalPos) ∧
    (1 ≤ t → (updateExplodedView parts t).map livePos = parts.map Part.explodedPos) ∧
    updateExplodedView (updateExplodedView parts t) t = updateExplodedView parts t := by
  refine ⟨?_, ?_, ?_, ?_⟩
  · rw [updateExplodedView, List.map_map]
    refine List.map_congr_left ?_
    intro p hp
    obtain ⟨hm, ho, he⟩ := h p hp
    obtain ⟨m, hm⟩ := Option.isSome_iff_exists.mp hm
    obtain ⟨o, ho⟩ := Option.isSome_iff_exists.mp ho
    obtain ⟨ep, he⟩ := Option.isSome_iff_exists.mp he
    simp [updatePart_position _ _ _ _ _ hm ho he, livePos, ho, he, lerpVectors_formula]
  · intro ht
    rw [updateExplodedView, clamp01_of_nonpos ht, eased_zero, List.map_map]
    refine List.map_congr_left ?_
    intro p hp
    obtain ⟨hm, ho, he⟩ := h p hp
    obtain ⟨m, hm⟩ := Option.isSome_iff_exists.mp hm
    obtain ⟨o, ho⟩ := Option.isSome_iff_exists.mp ho
    obtain ⟨ep, he⟩ := Option.isSome_iff_exists.mp he
    simp [updatePart_position _ _ _ _ _ hm ho he, livePos, ho, lerpVectors_zero]
  · intro ht
    rw [updateExplodedView, clamp01_of_one_le ht, eased_one, List.map_map]
    refine List.map_congr_left ?_
    intro p hp
    obtain ⟨hm, ho, he⟩ := h p hp
    obtain ⟨m, hm⟩ := Option.isSome_iff_exists.mp hm
    obtain ⟨o, ho⟩ := Option.isSome_iff_exists.mp ho
    obtain ⟨ep, he⟩ := Option.isSome_iff_exists.mp he
    simp [updatePart_position _ _ _ _ _ hm ho he, livePos, he, lerpVectors_one]
  · rw [updateExplodedView, updateExplodedView, List.map_map]
    refine List.map_congr_left ?_
    intro p _
    exact updatePart_idem _ p

/-- Witness for C4 at one concrete complete part and a raw progress of 2. -/
theorem c4_applyProgress_formula_witness :
    (∀ p ∈ [c4Part], p.mesh.isSome ∧ p.originalPos.isSome ∧ p.explodedPos.isSome) ∧
    (1 ≤ (2:ℚ) →
      (updateExplodedView [c4Part] 2).map livePos = [c4Part].map Part.explodedPos) := by
  have h : ∀ p ∈ [c4Part], p.mesh.isSome ∧ p.originalPos.isSome ∧ p.explodedPos.isSome := by
    intro p hp
    simp only [List.mem_singleton] at hp
    subst hp
    simp [c4Part]
  exact ⟨h, fun _ => (c4_applyProgress_formula [c4Part] 2 h).2.2.1 (by norm_num)⟩

/-- C7.  Calling updateExplodedView before setupExplodedView has filled in
explodedPos does not fail and moves nothing: with the creation invariant of
models.js (originalPos is a clone of the mesh position), every live position
stays exactly at originalPos, for every progress value. -/
theorem c7_applyProgress_before_setup (parts : List Part) (t : ℚ)
    (h1 : ∀ p ∈ parts, p.explodedPos = none)
    (h2 : ∀ p ∈ parts, ∀ m, p.mesh = some m → p.originalPos = some m.position) :
    updateExplodedView parts t = parts ∧
    ∀ p ∈ updateExplodedView parts t, ∀ m, p.mesh = some m →
      p.originalPos = some m.position := by
  have hid : updateExplodedView parts t = parts := by
    rw [updateExplodedView]
    refine (List.map_congr_left ?_).trans (List.map_id parts)
    intro p hp
    exact updatePart_skip _ p (h1 p hp)
  exact ⟨hid, by rw [hid]; exact h2⟩

/-- Witness for C7 at a part whose explodedPos was never computed. -/
theorem c7_applyProgress_before_setup_witness :
    (∀ p ∈ [c7Part], p.explodedPos = none) ∧
    updateExplodedView [c7Part] (7/10) = [c7Part] := by
  have h1 : ∀ p ∈ [c7Part], p.explodedPos = none := by
    intro p hp
    simp only [List.mem_singleton] at hp
    subst hp
    rfl
  have h2 : ∀ p ∈ [c7Part], ∀ m, p.mesh = some m → p.originalPos = some m.position := by
    intro p hp m hm
    simp only [List.mem_singleton] at hp
    subst hp
    simp only [c7Part, Option.some.injEq] at hm
    subst hm
    rfl
  exact ⟨h1, (c7_applyProgress_before_setup [c7Part] (7/10) h1 h2).1⟩

/-- C8.  The cubic ease-in-out of updateExplodedView fixes 0, 1/2 and 1, and
is non-decreasing on [0, 1]. -/
theorem c8_easing_properties :
    eased 0 = 0 ∧ eased (1/2) = 1/2 ∧ eased 1 = 1 ∧
    ∀ a b : ℚ, 0 ≤ a → a ≤ b → b ≤ 1 → eased a ≤ eased b := by
  refine ⟨eased_zero, eased_half, eased_one, ?_⟩
  intro a b ha hab hb
  rw [eased, eased]
  split_ifs with h1 h2 h2
  · nlinarith [mul_nonneg ha ha, mul_nonneg (mul_nonneg ha ha) ha,
      mul_nonneg (mul_nonneg (sub_nonneg.mpr hab) ha) ha,
      mul_nonneg (sub_nonneg.mpr hab) (sub_nonneg.mpr hab),
      mul_nonneg (mul_nonneg (sub_nonneg.mpr hab) (sub_nonneg.mpr hab)) ha]
  · have h2' : (1:ℚ)/2 ≤ b := not_lt.mp h2
    have ha2 : a ≤ 1/2 := le_of_lt h1
    have key1 : 4 * a * a * a ≤ 1/2 := by
      nlinarith [mul_nonneg ha ha, mul_nonneg (mul_nonneg ha ha) (sub_nonneg.mpr ha2)]
    have hb0 : (0:ℚ) ≤ 2 - 2*b := by linarith
    have hb1 : 2 - 2*b ≤ 1 := by linarith
    have key2 : (-2*b + 2)^3 ≤ 1 := by
      nlinarith [mul_nonneg hb0 hb0, mul_nonneg (mul_nonneg hb0 hb0) (sub_nonneg.mpr hb1)]
    linarith
  · exact absurd (lt_of_le_of_lt hab h2) (not_lt.mpr (not_lt.mp h1))
  · have hu0 : (0:ℚ) ≤ 2 - 2*b := by linarith
    have huw : 2 - 2*b ≤ 2 - 2*a := by linarith
    have key : (-2*b + 2)^3 ≤ (-2*a + 2)^3 := by
      nlinarith [mul_nonneg hu0 hu0, mul_nonneg (mul_nonneg hu0 hu0) (sub_nonneg.mpr huw),
        mul_nonneg (sub_nonneg.mpr huw) (sub_nonneg.mpr huw),
        mul_nonneg (mul_nonneg (sub_nonneg.mpr huw) (sub_nonneg.mpr huw)) hu0]
    linarith

/-- Witness for C8: the monotonicity at the concrete pair 1/4 and 3/4. -/
theorem c8_easing_properties_witness :
    ((0:ℚ) ≤ 1/4 ∧ (1/4:ℚ) ≤ 3/4 ∧ (3/4:ℚ) ≤ 1) ∧ eased (1/4) ≤ eased (3/4) :=
  ⟨⟨by norm_num, by norm_num, by norm_num⟩,
    c8_easing_properties.2.2.2 (1/4) (3/4) (by norm_num) (by norm_num) (by norm_num)⟩

/-- C9.  When setupExplodedView runs without a throw, every part ends with
explodedPos = originalPos.add explodeDir exactly, and running it again on the
result reproduces the result (idempotence). -/
theorem c9_computeExploded (parts ps : List Part)
    (h : setupExplodedView parts = (ps, none)) :
    (∀ p ∈ ps, ∃ o d, p.originalPos = some o ∧ p.explodeDir = some d ∧
      p.explodedPos = some (o.add d)) ∧
    setupExplodedView ps = (ps, none) :=
  setupExplodedView_ok parts ps h

/-- Witness for C9 at one concrete part. -/
theorem c9_computeExploded_witness :
    setupExplodedView [c9Part] =
      ([⟨some ⟨⟨1, 1, 1⟩⟩, some ⟨1, 1, 1⟩, some ⟨0, 2, 0⟩, some ⟨1, 3, 1⟩⟩], none) ∧
    setupExplodedView [(⟨some ⟨⟨1, 1, 1⟩⟩, some ⟨1, 1, 1⟩, some ⟨0, 2, 0⟩,
        some ⟨1, 3, 1⟩⟩ : Part)] =
      ([⟨some ⟨⟨1, 1, 1⟩⟩, some ⟨1, 1, 1⟩, some ⟨0, 2, 0⟩, some ⟨1, 3, 1⟩⟩], none) := by
  have h : setupExplodedView [c9Part] =
      ([⟨some ⟨⟨1, 1, 1⟩⟩, some ⟨1, 1, 1⟩, some ⟨0, 2, 0⟩, some ⟨1, 3, 1⟩⟩], none) := by
    simp only [setupExplodedView, setupPartStep, c9Part, Vec3.add]
    norm_num
  exact ⟨h, (c9_computeExploded _ _ h).2⟩

/-! ## Registry lemmas (registerModel) -/

theorem lookupEntry_map_replace {k id : String} (h : k ≠ id)
    (ms : List (String × ModelData)) (md : ModelData) :
    lookupEntry (ms.map (fun kv => if kv.1 = id then (id, md) else kv)) k =
      lookupEntry ms k := by
  induction ms with
  | nil => rfl
  | cons a rest ih =>
    rcases a with ⟨a1, b⟩
    simp only [List.map_cons]
    dsimp only
    by_cases ha : a1 = id
    · subst ha
      rw [if_pos rfl]
      simp only [lookupEntry]
      rw [if_neg (fun hh : a1 = k => h hh.symm), if_neg (fun hh : a1 = k => h hh.symm)]
      exact ih
    · rw [if_neg ha]
      simp only [lookupEntry]
      by_cases hk : a1 = k
      · rw [if_pos hk, if_pos hk]
      · rw [if_neg hk, if_neg hk]
        exact ih

theorem lookupEntry_map_replace_self (ms : List (String × ModelData)) (id : String)
    (md : ModelData) (hs : (lookupEntry ms id).isSome) :
    lookupEntry (ms.map (fun kv => if kv.1 = id then (id, md) else kv)) id = some md := by
  induction ms with
  | nil => simp [lookupEntry] at hs
  | cons a rest ih =>
    rcases a with ⟨a1, b⟩
    simp only [List.map_cons]
    dsimp only
    by_cases ha : a1 = id
    · rw [if_pos ha]
      simp [lookupEntry]
    · rw [if_neg ha]
      simp only [lookupEntry, if_neg ha] at hs ⊢
      exact ih hs

theorem lookupEntry_append_right_none {β : Type} (ms l : List (String × β)) (k : String)
    (h : lookupEntry l k = none) :
    lookupEntry (ms ++ l) k = lookupEntry ms k := by
  induction ms with
  | nil => simpa [lookupEntry] using h
  | cons a rest ih =>
    rcases a with ⟨a1, b⟩
    by_cases ha : a1 = k <;> simp [lookupEntry, ha, ih]

theorem insertModel_lookup_other (ms : List (String × ModelData)) (id : String)
    (md : ModelData) (k : String) (h : k ≠ id) :
    lookupEntry (insertModel ms id md) k = lookupEntry ms k := by
  rw [insertModel]
  split_ifs with hs
  · exact lookupEntry_map_replace h ms md
  · rw [lookupEntry_append_right_none]
    simp only [lookupEntry]
    rw [if_neg (fun hh : id = k => h hh.symm)]

theorem insertModel_lookup_self_isSome (ms : List (String × ModelData)) (id : String)
    (md : ModelData) :
    (lookupEntry (insertModel ms id md) id).isSome := by
  rw [insertModel]
  split_ifs with hs
  · rw [lookupEntry_map_replace_self ms id md hs]
    rfl
  · clear hs
    induction ms with
    | nil => simp [lookupEntry]
    | cons a rest ih =>
      rcases a with ⟨a1, b⟩
      simp only [List.cons_append, lookupEntry]
      by_cases ha : a1 = id
      · rw [if_pos ha]
        rfl
      · rw [if_neg ha]
        exact ih

theorem setupPartStep_err (p : Part)
    (h : (p.originalPos = none ∧ p.mesh = none) ∨ p.explodeDir = none) :
    (setupPartStep p).2 = some .typeError := by
  rcases h with ⟨h1, h2⟩ | h1
  · simp [setupPartStep, h1, h2]
  · rcases po : p.originalPos with _ | o
    · rcases pm : p.mesh with _ | m <;> simp [setupPartStep, po, pm, h1]
    · simp [setupPartStep, po, h1]

theorem setupExplodedView_err (ps : List Part)
    (h : ∃ p ∈ ps, (p.originalPos = none ∧ p.mesh = none) ∨ p.explodeDir = none) :
    (setupExplodedView ps).2 = some .typeError := by
  induction ps with
  | nil => simp at h
  | cons p rest ih =>
    rcases hstep : setupPartStep p with ⟨p1, e⟩
    rcases e with _ | e
    · obtain ⟨q, hq, hbad⟩ := h
      rcases List.mem_cons.mp hq with rfl | hq
      · have hcontra := setupPartStep_err q hbad
        rw [hstep] at hcontra
        simp at hcontra
      · rcases hr : setupExplodedView rest with ⟨rest1, e2⟩
        have h2 := ih ⟨q, hq, hbad⟩
        rw [hr] at h2
        rw [setupExplodedView, hstep, hr]
        exact h2
    · cases e
      rw [setupExplodedView, hstep]

/-! ## Claim theorems: model registration -/

/-- C6 counterexample.  registerModel does not fail silently: a modelData
with no parts field throws a TypeError, a part missing its explodeDir throws a
TypeError, and even an empty parts list changes state by storing the entry. -/
theorem c6_counterexample_registerModel :
    (registerModel [] "wheel" ⟨none⟩).2 = some JsError.typeError ∧
    (registerModel [] "wheel" ⟨some []⟩).1 ≠ [] ∧
    (registerModel [] "wheel"
      ⟨some [⟨none, some vzero, none, none⟩]⟩).2 = some JsError.typeError := by
  refine ⟨rfl, ?_, rfl⟩
  simp [registerModel, setupExplodedView, insertModel, lookupEntry]

/-- C6 amended.  registerModel performs no validation and emits no
diagnostic: it always stores an entry under sectionId and leaves every other
registered model intact; a missing parts field throws a TypeError, a part with
a missing required field (no originalPos and no mesh, or no explodeDir) makes
setupExplodedView throw a TypeError, and an empty parts list is stored
silently with no error. -/
theorem c6_amended_registerModel (ms : List (String × ModelData)) (sectionId : String)
    (md : ModelData) :
    (∀ k, k ≠ sectionId →
      lookupEntry (registerModel ms sectionId md).1 k = lookupEntry ms k) ∧
    (md.parts = none → (registerModel ms sectionId md).2 = some JsError.typeError) ∧
    (∀ ps, md.parts = some ps →
      (∃ p ∈ ps, (p.originalPos = none ∧ p.mesh = none) ∨ p.explodeDir = none) →
      (registerModel ms sectionId md).2 = some JsError.typeError) ∧
    (md.parts = some [] →
      registerModel ms sectionId md = (insertModel ms sectionId ⟨some []⟩, none)) ∧
    (lookupEntry (registerModel ms sectionId md).1 sectionId).isSome := by
  rcases hp : md.parts with _ | ps
  · refine ⟨?_, fun _ => ?_, ?_, ?_, ?_⟩
    · intro k hk
      simp only [registerModel, hp]
      exact insertModel_lookup_other ms sectionId md k hk
    · simp [registerModel, hp]
    · intro ps hps
      exact absurd hps (by simp)
    · intro h0
      exact absurd h0 (by simp)
    · simp only [registerModel, hp]
      exact insertModel_lookup_self_isSome ms sectionId md
  · rcases hs : setupExplodedView ps with ⟨ps1, e⟩
    refine ⟨?_, fun hnone => ?_, ?_, ?_, ?_⟩
    · intro k hk
      simp only [registerModel, hp, hs]
      exact insertModel_lookup_other ms sectionId _ k hk
    · exact absurd hnone (by simp)
    · intro ps' hps' hbad
      obtain rfl : ps = ps' := by injection hps'
      have herr := setupExplodedView_err ps hbad
      rw [hs] at herr
      simp only [registerModel, hp, hs]
      exact herr
    · intro h0
      injection h0 with h1
      subst h1
      rw [setupExplodedView] at hs
      obtain ⟨rfl, rfl⟩ : ([] : List Part) = ps1 ∧ (none : Option JsError) = e := by
        injection hs with h1 h2
        exact ⟨h1, h2⟩
      simp [registerModel, hp, setupExplodedView]
    · simp only [registerModel, hp, hs]
      exact insertModel_lookup_self_isSome ms sectionId _

/-- Witness for C6 amended: registering a partsless modelData over an
existing registry leaves the other entry intact and throws. -/
theorem c6_amended_registerModel_witness :
    ("wheel" ≠ "steam" ∧
      lookupEntry (registerModel [("wheel", ⟨some []⟩)] "steam" ⟨none⟩).1 "wheel" =
        lookupEntry [("wheel", (⟨some []⟩ : ModelData))] "wheel") ∧
    ((⟨none⟩ : ModelData).parts = none ∧
      (registerModel [("wheel", ⟨some []⟩)] "steam" ⟨none⟩).2 = some JsError.typeError) :=
  ⟨⟨by decide,
    (c6_amended_registerModel [("wheel", ⟨some []⟩)] "steam" ⟨none⟩).1 "wheel" (by decide)⟩,
   ⟨rfl, (c6_amended_registerModel [("wheel", ⟨some []⟩)] "steam" ⟨none⟩).2.1 rfl⟩⟩

/-! ## State-machine lemmas (scrollController + main) -/

theorem setActiveSection_same (s : SimState) (id : String) (h : s.activeSection = id) :
    setActiveSection s id = s := by
  rw [setActiveSection, if_pos h]

theorem showModel_notifications (s : SimState) (id : String) :
    (showModel s id).notifications = s.notifications := by
  rcases hc : s.currentModelId with _ | c <;>
    simp only [showModel, hc, updateModelGroup] <;> split_ifs <;> rfl

theorem initState_enter_steam_notifications (models : List (String × Obj3D)) :
    (setActiveSection (initState models) "steam").notifications = [("steam", "hero")] := by
  rw [setActiveSection, if_neg (by simp [initState])]
  rw [onSectionChange, if_pos (by decide)]
  rw [showModel_notifications]
  simp [initState]

/-! ## Claim theorems: section state machine and crossfade -/

/-- C2 counterexample.  The initial section identifier of the code is the
literal string hero, not idle: before any enter event getActiveSection
returns hero, and the first transition into steam notifies the observer with
(steam, hero), not (steam, idle). -/
theorem c2_initial_state_counterexample :
    getActiveSection (initState demoModels) = "hero" ∧
    getActiveSection (initState demoModels) ≠ "idle" ∧
    (setActiveSection (initState demoModels) "steam").notifications =
      [("steam", "hero")] ∧
    (setActiveSection (initState demoModels) "steam").notifications ≠
      [("steam", "idle")] := by
  have h2 := initState_enter_steam_notifications demoModels
  refine ⟨rfl, by decide, h2, ?_⟩
  rw [h2]
  decide

/-- C2 amended.  The initial state of the section machine carries the literal
identifier hero: before any enter event getActiveSection returns hero, and
the first transition into steam invokes the observer with (steam, hero). -/
theorem c2_initial_state_amended (models : List (String × Obj3D)) :
    getActiveSection (initState models) = "hero" ∧
    (setActiveSection (initState models) "steam").notifications = [("steam", "hero")] :=
  ⟨rfl, initState_enter_steam_notifications models⟩

/-- C3 amended.  When the driver references an id that is neither a known era
nor the active section, setActiveSection commits it as the active section and
notifies the observer, and the main.js handler immediately hides every model
(root visibility false, hard cut) and clears the current model id; tasks,
opacities and every other field are untouched, and no diagnostic exists. -/
theorem c3_amended_unknown_section (s : SimState) (id : String)
    (h1 : id ∉ ERA_ORDER) (h2 : s.activeSection ≠ id) :
    setActiveSection s id =
      { s with activeSection := id,
               notifications := s.notifications ++ [(id, s.activeSection)],
               currentModelId := none,
               models := s.models.map (fun kv => (kv.1, setRootVisible kv.2 false)) } := by
  rw [setActiveSection, if_neg h2]
  rw [onSectionChange, if_neg h1]
  rfl

/-- Witness for C3 amended at a concrete state and unknown id. -/
theorem c3_amended_unknown_section_witness :
    ("workshop" ∉ ERA_ORDER ∧ (initState demoModels).activeSection ≠ "workshop") ∧
    setActiveSection (initState demoModels) "workshop" =
      { initState demoModels with
          activeSection := "workshop",
          notifications := [("workshop", "hero")],
          currentModelId := none,
          models := (initState demoModels).models.map
            (fun kv => (kv.1, setRootVisible kv.2 false)) } :=
  ⟨⟨by decide, by decide⟩,
    c3_amended_unknown_section (initState demoModels) "workshop" (by decide) (by decide)⟩

/-- C3 counterexample.  With steam active, visible and fully faded in, an
enter event for the unknown id workshop does not leave prior state unchanged:
the committed active section changes to workshop and the steam model is
hidden. -/
theorem c3_unknown_section_counterexample :
    c3Pre.activeSection = "steam" ∧
    (lookupEntry c3Pre.models "steam").map rootVisible = some true ∧
    "workshop" ∉ ERA_SECTIONS ∧
    c3Post.activeSection = "workshop" ∧
    (lookupEntry c3Post.models "steam").map rootVisible = some false := by
  norm_num +decide [c3Post, c3Pre, runSim, step, setActiveSection, onSectionChange,
    showModel, hideAllModels, tickAll, tickTasks, runTask, updateModelGroup,
    setRootVisible, ERA_ORDER, ERA_SECTIONS, initState, demoModels, demoGroup,
    lookupEntry, setGroupOpacity, setGroupOpacityList, fadeNodeMat, slotFade, fadeMat,
    rootVisible, vzero, getActiveSection]

/-- C5.  An enter event carrying the already-active id is a complete no-op:
the state (notifications, tweens, counters, everything) is unchanged, no fade
restarted; concretely, entering wheel twice from the initial state produces
exactly one observer notification and one scheduled fade-in, not two. -/
theorem c5_redundant_enter (s : SimState) (h : s.activeSection = "wheel") :
    setActiveSection s "wheel" = s ∧
    c5Sim.notifications.length = 1 ∧
    c5Sim.fadeInScheduled = 1 ∧
    setActiveSection c5Sim "wheel" = c5Sim := by
  have hw : c5Sim.activeSection = "wheel" := by
    norm_num +decide [c5Sim, wheelInit, wheelModels, runSim, step, setActiveSection,
      onSectionChange, showModel, hideAllModels, updateModelGroup, setRootVisible,
      ERA_ORDER, ERA_SECTIONS, initState, demoGroup, lookupEntry, setGroupOpacity,
      setGroupOpacityList, fadeNodeMat, slotFade, fadeMat, vzero]
  refine ⟨setActiveSection_same s _ h, ?_, ?_, setActiveSection_same c5Sim _ hw⟩ <;>
    norm_num +decide [c5Sim, wheelInit, wheelModels, runSim, step, setActiveSection,
      onSectionChange, showModel, hideAllModels, updateModelGroup, setRootVisible,
      ERA_ORDER, ERA_SECTIONS, initState, demoGroup, lookupEntry, setGroupOpacity,
      setGroupOpacityList, fadeNodeMat, slotFade, fadeMat, vzero]

/-- Witness for C5 at a state whose active section is already the wheel. -/
theorem c5_redundant_enter_witness :
    wheelActiveState.activeSection = "wheel" ∧
    setActiveSection wheelActiveState "wheel" = wheelActiveState :=
  ⟨rfl, (c5_redundant_enter wheelActiveState rfl).1⟩

/-- C1 (evaluation of the code at the failing crossfade input).  In the
c1Events scenario the fade-to-0 on steam (scheduled at 0.6 s, due 0.9 s) is
superseded at 0.65 s by a fade-to-1 on steam, yet its completion action still
fires: the completion log records the superseded (steam, fadeOut) as well as
both fade-ins, and the steam model ends hidden (root visible false) even
though every one of its materials holds opacity 1. -/
theorem c1_superseded_completion_runs :
    c1BeforeTick.tasks =
      [⟨"steam", .fadeOut, 3/5, 3/10⟩, ⟨"electricity", .fadeIn, 7/10, 2/5⟩,
       ⟨"electricity", .fadeOut, 13/20, 3/10⟩, ⟨"steam", .fadeIn, 3/4, 2/5⟩] ∧
    c1Final.completionsFired =
      [("steam", .fadeIn), ("steam", .fadeOut), ("electricity", .fadeIn),
       ("electricity", .fadeOut), ("steam", .fadeIn)] ∧
    (lookupEntry c1Final.models "steam").map rootVisible = some false ∧
    (lookupEntry c1Final.models "steam").map allMats = some [⟨true, 1, 0⟩] := by
  norm_num +decide [c1Final, c1BeforeTick, c1Events, runSim, step, setActiveSection,
    onSectionChange, showModel, hideAllModels, tickAll, tickTasks, runTask,
    updateModelGroup, setRootVisible, ERA_ORDER, ERA_SECTIONS, initState, demoModels,
    demoGroup, lookupEntry, setGroupOpacity, setGroupOpacityList, fadeNodeMat, slotFade,
    fadeMat, rootVisible, vzero, allMats, allMatsList, slotMats, List.take]

/-! ## setGroupOpacity lemmas (C10) -/

theorem eraseMat_fadeMat (m : Material) (v : ℚ) : eraseMat (fadeMat m v) = eraseMat m := by
  simp [eraseMat, fadeMat]

theorem fadeMat_fadeMat (m : Material) (v : ℚ) : fadeMat (fadeMat m v) v = fadeMat m v := by
  simp [fadeMat]

mutual
theorem touchedMats_fade (g : Obj3D) (v : ℚ) :
    touchedMats (setGroupOpacity g v) = (touchedMats g).map (fun m => fadeMat m v) := by
  cases g with
  | node im ils mat pos vis ch =>
    cases im <;> cases ils <;> cases mat <;>
      simp [touchedMats, setGroupOpacity, fadeNodeMat, slotFade, slotMats, fadeMat_fadeMat,
        touchedMatsList_fade ch v, List.map_map, Function.comp]
theorem touchedMatsList_fade (l : ObjList) (v : ℚ) :
    touchedMatsList (setGroupOpacityList l v) =
      (touchedMatsList l).map (fun m => fadeMat m v) := by
  cases l with
  | nil => simp [touchedMatsList, setGroupOpacityList]
  | cons g t =>
    simp [touchedMatsList, setGroupOpacityList, touchedMats_fade g v,
      touchedMatsList_fade t v]
end

mutual
theorem untouchedMats_fade (g : Obj3D) (v : ℚ) :
    untouchedMats (setGroupOpacity g v) = untouchedMats g := by
  cases g with
  | node im ils mat pos vis ch =>
    cases im <;> cases ils <;> cases mat <;>
      simp [untouchedMats, setGroupOpacity, fadeNodeMat, slotFade, slotMats,
        untouchedMatsList_fade ch v]
theorem untouchedMatsList_fade (l : ObjList) (v : ℚ) :
    untouchedMatsList (setGroupOpacityList l v) = untouchedMatsList l := by
  cases l with
  | nil => rfl
  | cons g t =>
    simp [untouchedMatsList, setGroupOpacityList, untouchedMats_fade g v,
      untouchedMatsList_fade t v]
end

mutual
theorem eraseFade_fade (g : Obj3D) (v : ℚ) :
    eraseFade (setGroupOpacity g v) = eraseFade g := by
  cases g with
  | node im ils mat pos vis ch =>
    cases im <;> cases ils <;> cases mat <;>
      simp [eraseFade, setGroupOpacity, fadeNodeMat, slotFade, eraseSlot, eraseMat_fadeMat,
        eraseFadeList_fade ch v, List.map_map, Function.comp]
theorem eraseFadeList_fade (l : ObjList) (v : ℚ) :
    eraseFadeList (setGroupOpacityList l v) = eraseFadeList l := by
  cases l with
  | nil => rfl
  | cons g t =>
    simp [eraseFadeList, setGroupOpacityList, eraseFade_fade g v, eraseFadeList_fade t v]
end

mutual
theorem lsOk_fade (g : Obj3D) (v : ℚ) : lsOk (setGroupOpacity g v) = lsOk g := by
  cases g with
  | node im ils mat pos vis ch =>
    cases im <;> cases ils <;> cases mat <;>
      simp [lsOk, setGroupOpacity, fadeNodeMat, slotFade, lsOkList_fade ch v]
theorem lsOkList_fade (l : ObjList) (v : ℚ) :
    lsOkList (setGroupOpacityList l v) = lsOkList l := by
  cases l with
  | nil => rfl
  | cons g t => simp [lsOkList, setGroupOpacityList, lsOk_fade g v, lsOkList_fade t v]
end

mutual
theorem allMats_partition (g : Obj3D) (h : lsOk g = true) :
    ∀ m ∈ allMats g, m ∈ touchedMats g ∨ m ∈ untouchedMats g := by
  cases g with
  | node im ils mat pos vis ch =>
    intro m hm
    have h2 : lsOkList ch = true := by
      cases im <;> cases ils <;> cases mat <;> simp_all [lsOk]
    have hch := allMatsList_partition ch h2
    rw [allMats, List.mem_append] at hm
    rcases hm with hm | hm
    · cases im <;> cases ils <;> cases mat <;>
        simp_all [lsOk, touchedMats, untouchedMats, slotMats, List.mem_append]
    · rcases hch m hm with ht | hu <;>
        cases im <;> cases ils <;> cases mat <;>
          simp_all [touchedMats, untouchedMats, slotMats, List.mem_append]
theorem allMatsList_partition (l : ObjList) (h : lsOkList l = true) :
    ∀ m ∈ allMatsList l, m ∈ touchedMatsList l ∨ m ∈ untouchedMatsList l := by
  cases l with
  | nil => intro m hm; simp [allMatsList] at hm
  | cons g t =>
    intro m hm
    rw [lsOkList, Bool.and_eq_true] at h
    rw [allMatsList, List.mem_append] at hm
    rcases hm with hm | hm
    · rcases allMats_partition g h.1 m hm with ht | hu
      · left
        rw [touchedMatsList, List.mem_append]
        exact Or.inl ht
      · right
        rw [untouchedMatsList, List.mem_append]
        exact Or.inl hu
    · rcases allMatsList_partition t h.2 m hm with ht | hu
      · left
        rw [touchedMatsList, List.mem_append]
        exact Or.inr ht
      · right
        rw [untouchedMatsList, List.mem_append]
        exact Or.inr hu
end

/-- C10.  For every group whose line-segments nodes carry non-array materials
(as everywhere in models.js) and every opacity v, setGroupOpacity forces
transparent and writes opacity v on exactly the mesh materials (array elements
included) and line-segments materials of the subtree; materials of other
nodes are untouched, every non-(transparent/opacity) datum of the tree --
positions, visibility flags, structure, remaining material fields -- is
unchanged, every material of the subtree is accounted for by that partition,
and the property is stable under further fades, so a touched material stays
flagged transparent forever. -/
theorem c10_setGroupOpacity_effect (g : Obj3D) (v : ℚ) (h : lsOk g = true) :
    (∀ m ∈ touchedMats (setGroupOpacity g v), m.transparent = true ∧ m.opacity = v) ∧
    touchedMats (setGroupOpacity g v) = (touchedMats g).map (fun m => fadeMat m v) ∧
    untouchedMats (setGroupOpacity g v) = untouchedMats g ∧
    eraseFade (setGroupOpacity g v) = eraseFade g ∧
    (∀ m ∈ allMats g, m ∈ touchedMats g ∨ m ∈ untouchedMats g) ∧
    lsOk (setGroupOpacity g v) = true := by
  refine ⟨?_, touchedMats_fade g v, untouchedMats_fade g v, eraseFade_fade g v,
    allMats_partition g h, by rw [lsOk_fade g v]; exact h⟩
  intro m hm
  rw [touchedMats_fade g v] at hm
  obtain ⟨m0, hm0, rfl⟩ := List.mem_map.mp hm
  exact ⟨rfl, rfl⟩

/-- Witness for C10 at a concrete group holding a mesh with a two-material
array, a line-segments child and an untouched plain child. -/
theorem c10_setGroupOpacity_effect_witness :
    lsOk c10Group = true ∧
    (∀ m ∈ touchedMats (setGroupOpacity c10Group 0),
      m.transparent = true ∧ m.opacity = 0) ∧
    untouchedMats (setGroupOpacity c10Group 0) = untouchedMats c10Group :=
  ⟨rfl, (c10_setGroupOpacity_effect c10Group 0 rfl).1,
    (c10_setGroupOpacity_effect c10Group 0 rfl).2.2.1⟩

end EngTimeline

